import Mathlib

/-!
Verification of the client-side cost-estimation and content-quality-scoring
logic of the EbookAI application (`src/lib/aiService.js`,
`src/components/CostEstimator.jsx`, and the A/B-testing panel component).

JavaScript numbers are embedded as exact rationals (`ℚ`); a JS value that may
be `NaN` (arithmetic on a missing object field) is embedded as `Option ℚ`
with `none` standing for `NaN`, and `jAdd`/`jMul` propagating it.  Strings
are Lean `String`s, processed through their `List Char` data.
-/

/-- One maximal-run split in the style of JavaScript `String.split` with a
regex of the form `[c…]+`: the string is cut at every maximal run of
delimiter characters; an empty segment appears at the start (resp. end) when
the string starts (resp. ends) with a delimiter, and the whole string yields
the single segment `[[]]` when empty.  E.g. `"a..b" ↦ [a],[b]`,
`"a." ↦ [a],[]`, `"" ↦ [[]]`. -/
def splitOnRuns (d : Char → Bool) : List Char → List (List Char)
  | [] => [[]]
  | c :: cs =>
    let rest := splitOnRuns d cs
    if d c then
      match cs with
      | [] => [] :: rest
      | c2 :: _ => if d c2 then rest else [] :: rest
    else
      match rest with
      | [] => [[c]]
      | seg :: segs => (c :: seg) :: segs

/-- The whitespace class of the JavaScript regex `\s` (ASCII part: space,
tab, line feed, vertical tab, form feed, carriage return). -/
def isJsWhitespace (c : Char) : Bool :=
  c == ' ' || c == '\t' || c == '\n' || c == '\x0b' || c == '\x0c' || c == '\r'

/-- The character class `[.!?]` used to cut sentences. -/
def isSentenceDelim (c : Char) : Bool :=
  c == '.' || c == '!' || c == '?'

/-- JavaScript `String.prototype.includes`: `pat` occurs as a contiguous
substring (the empty pattern is contained in every string). -/
def listIncludes (pat : List Char) : List Char → Bool
  | [] => pat.isEmpty
  | c :: t => pat.isPrefixOf (c :: t) || listIncludes pat t

/-- The record returned by `AIService.analyzeContent` (the spec's
`ContentMetrics` / `scoreContent` result). -/
structure ContentMetrics where
  wordCount : ℕ
  readabilityScore : ℚ
  structureScore : ℚ
  overallScore : ℚ
deriving DecidableEq

/-- `AIService.calculateReadabilityScore`: `content.split(/[.!?]+/).length`
sentences, `content.split(/\s+/).length` words, scored by the band of the
average words per sentence. -/
def calculateReadabilityScore (content : String) : ℕ :=
  let sentences := (splitOnRuns isSentenceDelim content.data).length
  let words := (splitOnRuns isJsWhitespace content.data).length
  let avgWordsPerSentence : ℚ := (words : ℚ) / (sentences : ℚ)
  if 15 ≤ avgWordsPerSentence ∧ avgWordsPerSentence ≤ 20 then 90
  else if 10 ≤ avgWordsPerSentence ∧ avgWordsPerSentence ≤ 25 then 75
  else 60

/-- `AIService.analyzeStructure`: base 50, +15 for `<h2>`, +15 for `<h3>`,
+10 for `<ul>` or `<ol>`, +10 for `<blockquote>`, capped at 100. -/
def analyzeStructure (content : String) : ℕ :=
  let hasH2 := listIncludes "<h2>".data content.data
  let hasH3 := listIncludes "<h3>".data content.data
  let hasList := listIncludes "<ul>".data content.data || listIncludes "<ol>".data content.data
  let hasBlockquote := listIncludes "<blockquote>".data content.data
  let score := 50
  let score := if hasH2 then score + 15 else score
  let score := if hasH3 then score + 15 else score
  let score := if hasList then score + 10 else score
  let score := if hasBlockquote then score + 10 else score
  min score 100

/-- `AIService.analyzeContent` (the spec's `scoreContent`): word count is the
length of the `\s+` split, overall score is the plain average of the
readability and structure scores. -/
def analyzeContent (content : String) : ContentMetrics :=
  let wordCount := (splitOnRuns isJsWhitespace content.data).length
  let readabilityScore := calculateReadabilityScore content
  let structureScore := analyzeStructure content
  { wordCount := wordCount
    readabilityScore := (readabilityScore : ℚ)
    structureScore := (structureScore : ℚ)
    overallScore := ((readabilityScore : ℚ) + (structureScore : ℚ)) / 2 }

/-- Modelled from the spec (claim C4's reading of the readability formula,
for comparison with `calculateReadabilityScore`): the sentence count is the
number of NON-EMPTY segments of the `[.!?]+` split, coerced to at least 1;
the word count and the banding are those of the code. -/
def readabilityScoreClaimC4 (content : String) : ℕ :=
  let sentences := max 1 ((splitOnRuns isSentenceDelim content.data).filter
    (fun seg => !seg.isEmpty)).length
  let words := (splitOnRuns isJsWhitespace content.data).length
  let avgWordsPerSentence : ℚ := (words : ℚ) / (sentences : ℚ)
  if 15 ≤ avgWordsPerSentence ∧ avgWordsPerSentence ≤ 20 then 90
  else if 10 ≤ avgWordsPerSentence ∧ avgWordsPerSentence ≤ 25 then 75
  else 60

/-- One entry of the list built by `generateOptimizationSuggestions`. -/
structure Suggestion where
  type : String
  message : String
  priority : String
deriving DecidableEq

/-- The suggestion pushed when `metrics.wordCount < 300`. -/
def lengthSuggestion : Suggestion :=
  ⟨"length", "Consider expanding the content with more examples and details", "high"⟩

/-- The suggestion pushed when `metrics.readabilityScore < 70`. -/
def readabilitySuggestion : Suggestion :=
  ⟨"readability", "Try shorter sentences and simpler vocabulary for better readability", "medium"⟩

/-- The suggestion pushed when `metrics.structureScore < 70`. -/
def structureSuggestion : Suggestion :=
  ⟨"structure", "Add more headings, lists, and callout boxes for better structure", "medium"⟩

/-- The suggestion pushed when the content has no `<h3>`. -/
def subsectionSuggestion : Suggestion :=
  ⟨"structure", "Add subsections with H3 headers to improve content organization", "low"⟩

/-- `AIService.generateOptimizationSuggestions` (the spec's
`suggestImprovements`): four independent conditional pushes, in source
order. -/
def generateOptimizationSuggestions (content : String) (metrics : ContentMetrics) :
    List Suggestion :=
  let suggestions : List Suggestion := []
  let suggestions :=
    if metrics.wordCount < 300 then suggestions ++ [lengthSuggestion] else suggestions
  let suggestions :=
    if metrics.readabilityScore < 70 then suggestions ++ [readabilitySuggestion] else suggestions
  let suggestions :=
    if metrics.structureScore < 70 then suggestions ++ [structureSuggestion] else suggestions
  let suggestions :=
    if !(listIncludes "<h3>".data content.data) then suggestions ++ [subsectionSuggestion]
    else suggestions
  suggestions

/-- JS addition where either operand may be `NaN` (`none`). -/
def jAdd : Option ℚ → Option ℚ → Option ℚ
  | some a, some b => some (a + b)
  | _, _ => none

/-- JS multiplication where either operand may be `NaN` (`none`). -/
def jMul : Option ℚ → Option ℚ → Option ℚ
  | some a, some b => some (a * b)
  | _, _ => none

/-- One value of the `pricing` table of `CostEstimator`: a JS object that may
carry `input`/`output` per-1K-token rates and/or a per-`image` rate; a field
absent on the object is `none` (reading it in arithmetic yields `NaN`). -/
structure ModelPricing where
  input : Option ℚ
  output : Option ℚ
  image : Option ℚ

/-- The static `this.pricing` table of `CostEstimator` (identical in
`aiService.js` and `CostEstimator.jsx`), as a provider → model lookup. -/
def pricingTable (provider model : String) : Option ModelPricing :=
  if provider = "openai" then
    if model = "gpt-4-turbo-preview" then some ⟨some 0.01, some 0.03, none⟩
    else if model = "gpt-4" then some ⟨some 0.03, some 0.06, none⟩
    else if model = "gpt-3.5-turbo" then some ⟨some 0.0015, some 0.002, none⟩
    else if model = "dall-e-3" then some ⟨none, none, some 0.040⟩
    else none
  else if provider = "anthropic" then
    if model = "claude-3-opus" then some ⟨some 0.015, some 0.075, none⟩
    else if model = "claude-3-sonnet" then some ⟨some 0.003, some 0.015, none⟩
    else if model = "claude-3-haiku" then some ⟨some 0.00025, some 0.00125, none⟩
    else none
  else if provider = "stabilityai" then
    if model = "stable-diffusion" then some ⟨none, none, some 0.018⟩
    else none
  else none

/-- The text-generation contribution of `CostEstimator.calculateCost`: guarded
by existence of the pricing entry; 30% of the tokens are priced as input and
70% as output. -/
def textCostPart (provider model : String) (textTokens : ℚ) : Option ℚ :=
  match pricingTable provider model with
  | some modelPricing =>
    let inputTokens := textTokens * 0.3
    let outputTokens := textTokens * 0.7
    jAdd (jMul (some (inputTokens / 1000)) modelPricing.input)
         (jMul (some (outputTokens / 1000)) modelPricing.output)
  | none => some 0

/-- The image-generation contribution of `CostEstimator.calculateCost`:
`images * pricing.openai['dall-e-3'].image` for OpenAI,
`images * pricing.stabilityai['stable-diffusion'].image` for StabilityAI,
nothing otherwise. -/
def imageCostPart (provider : String) (images : ℚ) : Option ℚ :=
  if images > 0 then
    if provider = "openai" then
      jMul (some images) ((pricingTable "openai" "dall-e-3").bind ModelPricing.image)
    else if provider = "stabilityai" then
      jMul (some images) ((pricingTable "stabilityai" "stable-diffusion").bind ModelPricing.image)
    else some 0
  else some 0

/-- `CostEstimator.calculateCost` (the spec's `estimateCost` total): text cost
accumulated onto 0, then image cost, then a flat 1.2 factor when RAG is
enabled. -/
def calculateCost (provider model : String) (textTokens images : ℚ)
    (ragEnabled : Bool) : Option ℚ :=
  let totalCost : Option ℚ := some 0
  let totalCost := jAdd totalCost (textCostPart provider model textTokens)
  let totalCost := jAdd totalCost (imageCostPart provider images)
  if ragEnabled then jMul totalCost (some 1.2) else totalCost

/-- `CostEstimator.calculateContentCost`: the text cost alone, 0 when the
pricing entry is absent. -/
def calculateContentCost (provider model : String) (tokens : ℚ) : Option ℚ :=
  match pricingTable provider model with
  | some modelPricing =>
    jAdd (jMul (some (tokens * 0.3 / 1000)) modelPricing.input)
         (jMul (some (tokens * 0.7 / 1000)) modelPricing.output)
  | none => some 0

/-- One generated variation as held by the A/B-testing panel. -/
structure Variation where
  id : ℕ
  style : String
  temperature : ℚ
  content : String
  metrics : ContentMetrics

/-- JS `Array.prototype.reduce` with no initial value, specialised to the
best-variation callback `(best, current) => metric(current) > metric(best) ?
current : best`: the head seeds the accumulator and the tail is folded. -/
def pickBest (metric : Variation → ℚ) (v : Variation) (vs : List Variation) : Variation :=
  vs.foldl (fun best current => if metric best < metric current then current else best) v

/-- The "Best Overall" pick of the A/B-testing panel (`overallScore`). -/
def bestOverall (v : Variation) (vs : List Variation) : Variation :=
  pickBest (fun x => x.metrics.overallScore) v vs

/-- The "Most Readable" pick of the A/B-testing panel (`readabilityScore`). -/
def mostReadable (v : Variation) (vs : List Variation) : Variation :=
  pickBest (fun x => x.metrics.readabilityScore) v vs

/-- The "Best Structure" pick of the A/B-testing panel (`structureScore`). -/
def bestStructured (v : Variation) (vs : List Variation) : Variation :=
  pickBest (fun x => x.metrics.structureScore) v vs

/-! ## Helper lemmas -/

lemma splitOnRuns_ne_nil (d : Char → Bool) (l : List Char) : splitOnRuns d l ≠ [] := by
  induction l with
  | nil => simp [splitOnRuns]
  | cons c cs ih =>
    simp only [splitOnRuns]
    cases hc : d c
    · simp only [hc, Bool.false_eq_true, if_false]
      cases h : splitOnRuns d cs <;> simp
    · simp only [hc, if_true]
      cases cs with
      | nil => simp
      | cons c2 cs2 =>
        cases hc2 : d c2 <;> simp [hc2, ih]

lemma readability_cases (content : String) :
    calculateReadabilityScore content = 90 ∨ calculateReadabilityScore content = 75 ∨
      calculateReadabilityScore content = 60 := by
  simp only [calculateReadabilityScore]
  split_ifs <;> simp

lemma structure_bounds (content : String) :
    50 ≤ analyzeStructure content ∧ analyzeStructure content ≤ 100 := by
  simp only [analyzeStructure]
  split_ifs <;> omega

lemma analyzeContent_fields (content : String) :
    (analyzeContent content).wordCount = (splitOnRuns isJsWhitespace content.data).length ∧
    (analyzeContent content).readabilityScore = (calculateReadabilityScore content : ℚ) ∧
    (analyzeContent content).structureScore = (analyzeStructure content : ℚ) ∧
    (analyzeContent content).overallScore =
      ((calculateReadabilityScore content : ℚ) + (analyzeStructure content : ℚ)) / 2 :=
  ⟨rfl, rfl, rfl, rfl⟩

lemma pickBest_spec (f : Variation → ℚ) (v : Variation) (vs : List Variation) :
    ∃ l₁ l₂, v :: vs = l₁ ++ pickBest f v vs :: l₂ ∧
      (∀ w ∈ v :: vs, f w ≤ f (pickBest f v vs)) ∧
      (∀ w ∈ l₁, f w < f (pickBest f v vs)) := by
  induction vs generalizing v with
  | nil =>
    refine ⟨[], [], rfl, ?_, by simp⟩
    intro w hw
    simp only [List.mem_singleton] at hw
    simp [hw, pickBest]
  | cons w vs ih =>
    have hstep : pickBest f v (w :: vs) = pickBest f (if f v < f w then w else v) vs := rfl
    by_cases hvw : f v < f w
    · obtain ⟨l₁, l₂, hdecomp, hmax, hstrict⟩ := ih w
      have hb : pickBest f v (w :: vs) = pickBest f w vs := by rw [hstep, if_pos hvw]
      refine ⟨v :: l₁, l₂, ?_, ?_, ?_⟩
      · rw [hb, List.cons_append, ← hdecomp]
      · intro x hx
        rw [hb]
        rcases List.mem_cons.mp hx with rfl | hx'
        · exact le_trans (le_of_lt hvw) (hmax w (List.mem_cons_self _ _))
        · exact hmax x hx'
      · intro x hx
        rw [hb]
        rcases List.mem_cons.mp hx with rfl | hx'
        · exact lt_of_lt_of_le hvw (hmax w (List.mem_cons_self _ _))
        · exact hstrict x hx'
    · obtain ⟨l₁, l₂, hdecomp, hmax, hstrict⟩ := ih v
      have hb : pickBest f v (w :: vs) = pickBest f v vs := by rw [hstep, if_neg hvw]
      have hwv : f w ≤ f v := le_of_not_lt hvw
      cases l₁ with
      | nil =>
        simp only [List.nil_append] at hdecomp
        obtain ⟨hveq, hl₂⟩ := List.cons_eq_cons.mp hdecomp
        refine ⟨[], w :: vs, ?_, ?_, by simp⟩
        · rw [hb, List.nil_append, ← hveq]
        · intro x hx
          rw [hb, ← hveq]
          rcases List.mem_cons.mp hx with rfl | hx'
          · exact le_refl _
          · rcases List.mem_cons.mp hx' with rfl | hx''
            · exact hwv
            · have hx3 := hmax x (List.mem_cons_of_mem _ hx'')
              rw [← hveq] at hx3
              exact hx3
      | cons a l₁' =>
        obtain ⟨hav, hvs⟩ := List.cons_eq_cons.mp hdecomp
        subst hav
        refine ⟨v :: w :: l₁', l₂, ?_, ?_, ?_⟩
        · rw [hb]
          exact congrArg (v :: ·) (congrArg (w :: ·) hvs)
        · intro x hx
          rw [hb]
          rcases List.mem_cons.mp hx with rfl | hx'
          · exact hmax x (List.mem_cons_self _ _)
          · rcases List.mem_cons.mp hx' with rfl | hx''
            · have hvlt : f v < f (pickBest f v vs) :=
                hstrict v (List.mem_cons_self _ _)
              exact le_of_lt (lt_of_le_of_lt hwv hvlt)
            · exact hmax x (List.mem_cons_of_mem _ hx'')
        · intro x hx
          rw [hb]
          rcases List.mem_cons.mp hx with rfl | hx'
          · exact hstrict x (List.mem_cons_self _ _)
          · rcases List.mem_cons.mp hx' with rfl | hx''
            · have hvlt : f v < f (pickBest f v vs) :=
                hstrict v (List.mem_cons_self _ _)
              exact lt_of_le_of_lt hwv hvlt
            · exact hstrict x (List.mem_cons_of_mem _ hx'')

/-! ## Claim theorems -/

/-- C10: for every input string (including the empty one) the readability
score computed by `calculateReadabilityScore` is one of exactly the three
values 60, 75, 90; in particular it is never 0. -/
theorem readability_score_banded (content : String) :
    (calculateReadabilityScore content = 60 ∨ calculateReadabilityScore content = 75 ∨
      calculateReadabilityScore content = 90) ∧ calculateReadabilityScore content ≠ 0 := by
  rcases readability_cases content with h | h | h <;> simp [h]

/-- C6: for every input string, the structure score is 50, plus 15 for a
`<h2>` marker, plus 15 for a `<h3>` marker, plus 10 for a `<ul>` or `<ol>`
marker, plus 10 for a `<blockquote>` marker, clamped to a maximum of 100. -/
theorem structure_score_formula (content : String) :
    analyzeStructure content =
      min (50 + (if listIncludes "<h2>".data content.data then 15 else 0)
              + (if listIncludes "<h3>".data content.data then 15 else 0)
              + (if listIncludes "<ul>".data content.data || listIncludes "<ol>".data content.data
                 then 10 else 0)
              + (if listIncludes "<blockquote>".data content.data then 10 else 0)) 100 := by
  simp only [analyzeStructure]
  split_ifs <;> rfl

/-- C9: for every content string and metrics, `generateOptimizationSuggestions`
emits exactly the suggestions whose conditions hold (word count below 300 at
high priority, readability below 70 at medium, structure below 70 at medium,
missing `<h3>` at low), in that fixed order, and is deterministic. -/
theorem suggestions_exact_order (content : String) (metrics : ContentMetrics) :
    generateOptimizationSuggestions content metrics =
      (if metrics.wordCount < 300 then [lengthSuggestion] else []) ++
      (if metrics.readabilityScore < 70 then [readabilitySuggestion] else []) ++
      (if metrics.structureScore < 70 then [structureSuggestion] else []) ++
      (if listIncludes "<h3>".data content.data then [] else [subsectionSuggestion]) ∧
    generateOptimizationSuggestions content metrics =
      generateOptimizationSuggestions content metrics := by
  refine ⟨?_, rfl⟩
  simp only [generateOptimizationSuggestions]
  by_cases h1 : metrics.wordCount < 300 <;>
    by_cases h2 : metrics.readabilityScore < 70 <;>
      by_cases h3 : metrics.structureScore < 70 <;>
        cases h4 : listIncludes "<h3>".data content.data <;>
          simp [h1, h2, h3, h4]

/-- C4 counterexample: on thirty words ending in a period, the code's
raw-split sentence count is 2 (the trailing empty segment counts), giving an
average of 15 and a score of 90, while the claim's non-empty-segment count is
1, giving an average of 30 and a score of 60. -/
theorem readability_raw_split_counterexample :
    calculateReadabilityScore
        "a a a a a a a a a a a a a a a a a a a a a a a a a a a a a a." = 90 ∧
    readabilityScoreClaimC4
        "a a a a a a a a a a a a a a a a a a a a a a a a a a a a a a." = 60 ∧
    calculateReadabilityScore
        "a a a a a a a a a a a a a a a a a a a a a a a a a a a a a a." ≠
      readabilityScoreClaimC4
        "a a a a a a a a a a a a a a a a a a a a a a a a a a a a a a." := by
  have hs : (splitOnRuns isSentenceDelim
      "a a a a a a a a a a a a a a a a a a a a a a a a a a a a a a.".data).length = 2 := by
    decide
  have hw : (splitOnRuns isJsWhitespace
      "a a a a a a a a a a a a a a a a a a a a a a a a a a a a a a.".data).length = 30 := by
    decide
  have hf : ((splitOnRuns isSentenceDelim
      "a a a a a a a a a a a a a a a a a a a a a a a a a a a a a a.".data).filter
        (fun seg => !seg.isEmpty)).length = 1 := by decide
  have h1 : calculateReadabilityScore
      "a a a a a a a a a a a a a a a a a a a a a a a a a a a a a a." = 90 := by
    simp only [calculateReadabilityScore]
    norm_num [hs, hw]
  have h2 : readabilityScoreClaimC4
      "a a a a a a a a a a a a a a a a a a a a a a a a a a a a a a." = 60 := by
    simp only [readabilityScoreClaimC4]
    norm_num [hf, hw]
  exact ⟨h1, h2, by rw [h1, h2]; decide⟩

/-- C4 amended: the readability score is determined by
`avgWordsPerSentence = wordCount / sentenceCount` where `sentenceCount` is
the TOTAL number of segments of the split on `[.!?]+` (empty segments
included; this count is always at least 1, so no coercion is applied), with
first-match-wins banding 90 / 75 / 60. -/
theorem readability_formula_raw_counts (content : String) :
    1 ≤ (splitOnRuns isSentenceDelim content.data).length ∧
    calculateReadabilityScore content =
      (if 15 ≤ ((splitOnRuns isJsWhitespace content.data).length : ℚ) /
              ((splitOnRuns isSentenceDelim content.data).length : ℚ) ∧
            ((splitOnRuns isJsWhitespace content.data).length : ℚ) /
              ((splitOnRuns isSentenceDelim content.data).length : ℚ) ≤ 20 then 90
        else if 10 ≤ ((splitOnRuns isJsWhitespace content.data).length : ℚ) /
              ((splitOnRuns isSentenceDelim content.data).length : ℚ) ∧
            ((splitOnRuns isJsWhitespace content.data).length : ℚ) /
              ((splitOnRuns isSentenceDelim content.data).length : ℚ) ≤ 25 then 75
        else 60) := by
  refine ⟨?_, rfl⟩
  have h := splitOnRuns_ne_nil isSentenceDelim content.data
  exact Nat.one_le_iff_ne_zero.mpr (by simpa [List.length_eq_zero] using h)

/-- C1 counterexample: on the empty string the word count is 1, not 0 (the JS
split of the empty string on whitespace yields one empty token). -/
theorem empty_content_wordCount_ne_zero : ¬ ((analyzeContent "").wordCount = 0) := by
  have h : (analyzeContent "").wordCount = 1 := by
    rw [(analyzeContent_fields "").1]
    decide
  rw [h]
  decide

/-- C1 amended: on the empty string `analyzeContent` does not crash and
returns word count 1, readability 60 (the floor band), structure 50, and
overall 55 — the mean of the two scores. -/
theorem empty_content_metrics :
    analyzeContent "" =
      { wordCount := 1, readabilityScore := 60, structureScore := 50, overallScore := 55 } := by
  have h0 : (splitOnRuns isJsWhitespace "".data).length = 1 := by decide
  have hs : (splitOnRuns isSentenceDelim "".data).length = 1 := by decide
  have h1 : calculateReadabilityScore "" = 60 := by
    simp only [calculateReadabilityScore]
    norm_num [h0, hs]
  have h2 : analyzeStructure "" = 50 := by decide
  obtain ⟨hfw, hfr, hfs, hfo⟩ := analyzeContent_fields ""
  have hov : (analyzeContent "").overallScore = 55 := by
    rw [hfo, h1, h2]; norm_num
  cases hm : analyzeContent ""
  rw [hm] at hfw hfr hfs hov
  simp only at hfw hfr hfs hov
  simp [hfw, hfr, hfs, hov, h0, h1, h2]

/-- C3 counterexample: on ten words without punctuation the metrics are
readability 75, structure 50, and overall 62.5 — which is not the rounded
mean 63, refuting `overallScore == round((readability + structure) / 2)`. -/
theorem overall_score_not_rounded_ex :
    ¬ ((analyzeContent "a a a a a a a a a a").overallScore =
        ((round (((analyzeContent "a a a a a a a a a a").readabilityScore +
            (analyzeContent "a a a a a a a a a a").structureScore) / 2) : ℤ) : ℚ)) := by
  have hs : (splitOnRuns isSentenceDelim "a a a a a a a a a a".data).length = 1 := by decide
  have hw : (splitOnRuns isJsWhitespace "a a a a a a a a a a".data).length = 10 := by decide
  have h1 : calculateReadabilityScore "a a a a a a a a a a" = 75 := by
    simp only [calculateReadabilityScore]
    norm_num [hs, hw]
  have h2 : analyzeStructure "a a a a a a a a a a" = 50 := by decide
  obtain ⟨hfw, hfr, hfs, hfo⟩ := analyzeContent_fields "a a a a a a a a a a"
  rw [hfo, hfr, hfs, h1, h2]
  have hround : round (((75 : ℚ) + 50) / 2) = 63 := by
    rw [round_eq]
    norm_num
  push_cast
  rw [hround]
  norm_num

/-- C3 amended: for every input string the metrics satisfy
`overallScore = (readabilityScore + structureScore) / 2` EXACTLY (no
rounding; the value can be a half-integer), and all three scores lie in
[0, 100]. -/
theorem content_metrics_mean_and_bounds (content : String) :
    (analyzeContent content).overallScore =
        ((analyzeContent content).readabilityScore +
          (analyzeContent content).structureScore) / 2 ∧
      0 ≤ (analyzeContent content).readabilityScore ∧
        (analyzeContent content).readabilityScore ≤ 100 ∧
      0 ≤ (analyzeContent content).structureScore ∧
        (analyzeContent content).structureScore ≤ 100 ∧
      0 ≤ (analyzeContent content).overallScore ∧
        (analyzeContent content).overallScore ≤ 100 := by
  obtain ⟨hfw, hfr, hfs, hfo⟩ := analyzeContent_fields content
  obtain ⟨hs1, hs2⟩ := structure_bounds content
  have hsq1 : (50 : ℚ) ≤ (analyzeStructure content : ℚ) := by exact_mod_cast hs1
  have hsq2 : (analyzeStructure content : ℚ) ≤ 100 := by exact_mod_cast hs2
  have hmean : (analyzeContent content).overallScore =
      ((analyzeContent content).readabilityScore +
        (analyzeContent content).structureScore) / 2 := by
    rw [hfo, hfr, hfs]
  refine ⟨hmean, ?_⟩
  rcases readability_cases content with h | h | h <;>
    rw [hfr, hfs, hfo, h] <;> push_cast <;>
      refine ⟨by norm_num, by norm_num, by linarith, by linarith, ?_, ?_⟩ <;> linarith

/-- C2: for every provider, model, token volume and image count, the total
cost with RAG enabled is exactly 1.2 times the total cost with RAG disabled
(also in the `NaN` case, where both sides are `NaN`). -/
theorem rag_multiplier_totalCost (provider model : String) (textTokens images : ℚ) :
    calculateCost provider model textTokens images true =
      jMul (some 1.2) (calculateCost provider model textTokens images false) := by
  simp only [calculateCost]
  cases jAdd (jAdd (some 0) (textCostPart provider model textTokens))
      (imageCostPart provider images) with
  | none => simp [jMul]
  | some q => simp [jMul, mul_comm]

/-- C5: when the pricing table has no entry for the provider/model pair, the
text cost contribution is zero, the image cost is still computed, and an
estimate (a non-`NaN` number) is always produced. -/
theorem calculateCost_absent_pricing (provider model : String) (textTokens images : ℚ)
    (ragEnabled : Bool) (h : pricingTable provider model = none) :
    textCostPart provider model textTokens = some 0 ∧
    ∃ q, imageCostPart provider images = some q ∧
      calculateCost provider model textTokens images ragEnabled =
        some ((if ragEnabled then 1.2 else 1) * q) := by
  have ht : textCostPart provider model textTokens = some 0 := by
    simp only [textCostPart, h]
  have himg : ∃ q, imageCostPart provider images = some q := by
    have hd : pricingTable "openai" "dall-e-3" = some ⟨none, none, some 0.040⟩ := rfl
    have hsd : pricingTable "stabilityai" "stable-diffusion" =
        some ⟨none, none, some 0.018⟩ := rfl
    simp only [imageCostPart, hd, hsd, Option.bind]
    split_ifs <;> exact ⟨_, rfl⟩
  obtain ⟨q, hq⟩ := himg
  refine ⟨ht, q, hq, ?_⟩
  simp only [calculateCost, ht, hq, jAdd]
  cases ragEnabled <;> simp [jMul, mul_comm]

/-- C5 witness: an unknown provider/model pair still gets an estimate, with
zero text contribution, at `textTokens = 500`, `images = 3`, RAG on. -/
theorem calculateCost_absent_pricing_witness :
    pricingTable "mistral" "mixtral" = none ∧
    (textCostPart "mistral" "mixtral" 500 = some 0 ∧
      ∃ q, imageCostPart "mistral" 3 = some q ∧
        calculateCost "mistral" "mixtral" 500 3 true =
          some ((if true then 1.2 else 1) * q)) :=
  ⟨rfl, calculateCost_absent_pricing "mistral" "mixtral" 500 3 true rfl⟩

/-- C7: for OpenAI gpt-4 with 10000 text tokens, 5 images and RAG off, the
text cost is 0.51, the image cost is 0.20, and the total cost is 0.71. -/
theorem gpt4_cost_example :
    calculateContentCost "openai" "gpt-4" 10000 = some 0.51 ∧
    imageCostPart "openai" 5 = some 0.20 ∧
    calculateCost "openai" "gpt-4" 10000 5 false = some 0.71 := by
  have hp : pricingTable "openai" "gpt-4" = some ⟨some 0.03, some 0.06, none⟩ := rfl
  have hd : pricingTable "openai" "dall-e-3" = some ⟨none, none, some 0.040⟩ := rfl
  have htext : textCostPart "openai" "gpt-4" 10000 = some 0.51 := by
    rw [textCostPart, hp]
    simp only [jAdd, jMul]
    norm_num
  have himg : imageCostPart "openai" 5 = some 0.20 := by
    rw [imageCostPart]
    norm_num [hd, Option.bind, jMul]
  have hcontent : calculateContentCost "openai" "gpt-4" 10000 = some 0.51 := by
    rw [calculateContentCost, hp]
    simp only [jAdd, jMul]
    norm_num
  refine ⟨hcontent, himg, ?_⟩
  rw [calculateCost, htext, himg]
  simp only [jAdd]
  norm_num

/-- C8: for every non-empty variation list (head plus tail, in generation
order), each of the three picks of the A/B-testing panel attains the maximum
of its metric over the list, and every variation strictly before the pick has
a strictly smaller metric — so ties go to the earliest variation. -/
theorem rank_variations_first_max (v : Variation) (vs : List Variation) :
    (∃ l₁ l₂, v :: vs = l₁ ++ bestOverall v vs :: l₂ ∧
        (∀ w ∈ v :: vs, w.metrics.overallScore ≤ (bestOverall v vs).metrics.overallScore) ∧
        (∀ w ∈ l₁, w.metrics.overallScore < (bestOverall v vs).metrics.overallScore)) ∧
    (∃ l₁ l₂, v :: vs = l₁ ++ mostReadable v vs :: l₂ ∧
        (∀ w ∈ v :: vs,
          w.metrics.readabilityScore ≤ (mostReadable v vs).metrics.readabilityScore) ∧
        (∀ w ∈ l₁,
          w.metrics.readabilityScore < (mostReadable v vs).metrics.readabilityScore)) ∧
    (∃ l₁ l₂, v :: vs = l₁ ++ bestStructured v vs :: l₂ ∧
        (∀ w ∈ v :: vs,
          w.metrics.structureScore ≤ (bestStructured v vs).metrics.structureScore) ∧
        (∀ w ∈ l₁,
          w.metrics.structureScore < (bestStructured v vs).metrics.structureScore)) :=
  ⟨pickBest_spec (fun x => x.metrics.overallScore) v vs,
   pickBest_spec (fun x => x.metrics.readabilityScore) v vs,
   pickBest_spec (fun x => x.metrics.structureScore) v vs⟩
